import Mathlib

/-!
# survey_manager: SonarCoverage

A shallow embedding of `src/SonarCoverage.cpp` (the `SonarCoverage` nodelet) and
theorems about its callbacks.

Modelling conventions.

* The depth reading `data->data` and the values computed from it (the port and
  starboard distances of a ping, the alongship half distance, the distances handed
  to `direct`) are `Double`s: a rational value or NaN, with NaN-propagating
  arithmetic and comparisons that are false on NaN.  Rounding and infinities are
  not modelled.
* Every other C++ `double` (heading, position, accumulated distance, the
  constants of the constructor, coordinates) is an exact rational `ℚ`.
* A `ros::Time` is an integer number of nanoseconds; `ros::Duration(.5)` is
  `500000000` nanoseconds.  `ros::Time::now()` is an input of `depthCallback`.
* The external collaborators are the fields of `Env`: the geodesic
  `direct`/`inverse` of `gz4d::geo::WGS84::Ellipsoid`, libm `tan` with the constant
  `M_PI`, and the GEOS `CascadedPolygonUnion` and `DouglasPeuckerSimplifier`.
* The messages handed to `m_coverage_pub.publish` are recorded, oldest first, in
  the list `m_coverage_pub`.
* The members of the class and the fields of `PingRecord` are declared in
  `survey_manager/SonarCoverage.h`; they are taken here as `SonarCoverage.cpp`
  reads and writes them.
* Object lifetime is not modelled: the polygons of `m_coverage` are values.
-/

namespace survey_manager

/-- A `ros::Time`, in nanoseconds. -/
abbrev Time := Int

/-- The value of `ros::Duration(.5)`, in nanoseconds. -/
def halfSecond : Int := 500000000

/-- A C++ `double` that may be NaN: a rational value or NaN. -/
inductive Double where
  | nan
  | num (q : ℚ)
deriving DecidableEq, Repr

/-- The product of two doubles: NaN when an operand is NaN. -/
def Double.mul : Double → Double → Double
  | Double.num x, Double.num y => Double.num (x * y)
  | _, _ => Double.nan

/-- The sum of two doubles: NaN when an operand is NaN. -/
def Double.add : Double → Double → Double
  | Double.num x, Double.num y => Double.num (x + y)
  | _, _ => Double.nan

/-- The comparison `a < b` of two doubles: false when an operand is NaN. -/
def Double.lt : Double → Double → Bool
  | Double.num x, Double.num y => decide (x < y)
  | _, _ => false

/-- The comparison `a <= b` of two doubles: false when an operand is NaN. -/
def Double.le : Double → Double → Bool
  | Double.num x, Double.num y => decide (x ≤ y)
  | _, _ => false

instance : Mul Double := ⟨Double.mul⟩

instance : Add Double := ⟨Double.add⟩

instance : LT Double := ⟨fun a b => Double.lt a b = true⟩

instance : LE Double := ⟨fun a b => Double.le a b = true⟩

instance (a b : Double) : Decidable (a < b) :=
  inferInstanceAs (Decidable (Double.lt a b = true))

instance (a b : Double) : Decidable (a ≤ b) :=
  inferInstanceAs (Decidable (Double.le a b = true))

instance (n : Nat) : OfNat Double n := ⟨Double.num n⟩

/-- A `gz4d::geo::Point<double, WGS84::LatLon>`: index 0 is the latitude, index 1
the longitude. -/
structure LatLon where
  lat : ℚ
  lon : ℚ
deriving DecidableEq, Repr

/-- A `geos::geom::Coordinate` (planar part). -/
structure Coordinate where
  x : ℚ
  y : ℚ
deriving DecidableEq, Repr

/-- A `geos::geom::Polygon`: the coordinates of its exterior ring and of its
interior rings. -/
structure Polygon where
  exteriorRing : List Coordinate
  holes : List (List Coordinate)
deriving DecidableEq, Repr

/-- The dynamic type of a `geos::geom::Geometry`, as far as the two
`dynamic_cast`s of `depthCallback` tell it apart. -/
inductive Geometry where
  | polygon (p : Polygon)
  | multiPolygon (ps : List Polygon)
  | other
deriving DecidableEq, Repr

/-- The record `PingRecord` of one depth reading. -/
structure PingRecord where
  heading : ℚ
  nadir_latitude : ℚ
  nadir_longitude : ℚ
  port_distance : Double
  starboard_distance : Double
deriving DecidableEq, Repr

/-- The position of a `geographic_msgs::GeoPoseStamped`; every other field of the
message keeps its default value. -/
structure GeoPoseStamped where
  latitude : ℚ
  longitude : ℚ
deriving DecidableEq, Repr

/-- A `geographic_msgs::GeoPath`. -/
structure GeoPath where
  poses : List GeoPoseStamped
deriving DecidableEq, Repr

/-- The external functions `SonarCoverage.cpp` calls. -/
structure Env where
  /-- The constant `M_PI`. -/
  M_PI : ℚ
  /-- The function `tan` of libm. -/
  tan : ℚ → ℚ
  /-- The call `WGS84::Ellipsoid::direct(p, azimuth, distance)`. -/
  direct : LatLon → ℚ → Double → LatLon
  /-- The call `WGS84::Ellipsoid::inverse(p1, p2)`: azimuth and distance. -/
  inverse : LatLon → LatLon → ℚ × ℚ
  /-- The call `CascadedPolygonUnion(&polygons).Union()`. -/
  cascadedUnion : List Polygon → Geometry
  /-- A `DouglasPeuckerSimplifier` with the given distance tolerance, applied to a
  geometry. -/
  simplify : ℚ → Geometry → Geometry

/-- The members of the class `SonarCoverage`. -/
structure SonarCoverage where
  m_interval : ℚ
  m_alongship_beamwidth : ℚ
  m_port_angle : ℚ
  m_starboard_angle : ℚ
  m_interval_accumulated_distance : ℚ
  m_half_alongship_beamwidth_tan : ℚ
  m_port_tan : ℚ
  m_starboard_tan : ℚ
  m_heading : ℚ
  m_latitude : ℚ
  m_longitude : ℚ
  m_last_heading_time : Time
  m_last_position_time : Time
  m_interval_record : List PingRecord
  m_pings : List PingRecord
  m_coverage : List Polygon
  /-- The messages published on `/coverage` so far, oldest first. -/
  m_coverage_pub : List GeoPath
deriving DecidableEq, Repr

/-- The function `std::min` on doubles: `(b < a) ? b : a`.  The comparison is
false when an operand is NaN, and the first argument is then returned. -/
def stdMin (a b : Double) : Double := if b < a then b else a

namespace SonarCoverage

/-- The constructor `SonarCoverage::SonarCoverage()` (lines 15-20).  The members it
does not initialise (`m_heading`, `m_latitude`, `m_longitude`) are arguments;
the two `ros::Time` members are default-constructed to zero and the containers to
empty. -/
def construct (env : Env) (heading latitude longitude : ℚ) : SonarCoverage :=
  { m_interval := 5
    m_alongship_beamwidth := 5
    m_port_angle := 75
    m_starboard_angle := 75
    m_interval_accumulated_distance := 0
    m_half_alongship_beamwidth_tan := env.tan (5 * env.M_PI / 360)
    m_port_tan := env.tan (75 * env.M_PI / 180)
    m_starboard_tan := env.tan (75 * env.M_PI / 180)
    m_heading := heading
    m_latitude := latitude
    m_longitude := longitude
    m_last_heading_time := 0
    m_last_position_time := 0
    m_interval_record := []
    m_pings := []
    m_coverage := []
    m_coverage_pub := [] }

/-- The inner loop of `publishCoverage` (lines 181-194): the exterior-ring
coordinates of one polygon, each as a pose with `latitude = y` and
`longitude = x`, and then the pose `(-91, -181)`. -/
def publishCoverage_polygon (p : Polygon) : List GeoPoseStamped :=
  p.exteriorRing.map (fun c => { latitude := c.y, longitude := c.x })
    ++ [{ latitude := -91, longitude := -181 }]

/-- The path `gpath` built by `publishCoverage` (lines 178-195): a loop over
`m_coverage` that pushes the poses of each polygon on the back of the path. -/
def publishCoverage_gpath (coverage : List Polygon) : GeoPath :=
  { poses := coverage.foldl (fun poses p => poses ++ publishCoverage_polygon p) [] }

/-- The method `publishCoverage` (lines 176-197): builds the path and publishes it.
The statements after the `return` of line 197 are never executed. -/
def publishCoverage (s : SonarCoverage) : SonarCoverage :=
  { s with m_coverage_pub := s.m_coverage_pub ++ [publishCoverage_gpath s.m_coverage] }

/-- The method `processInterval` (lines 148-174). -/
def processInterval (s : SonarCoverage) : SonarCoverage :=
  match s.m_interval_record with
  | [] => s
  | front :: rest =>
    let min_distance_port :=
      (front :: rest).foldl (fun m ir => stdMin m ir.port_distance) front.port_distance
    let min_distance_starboard :=
      (front :: rest).foldl (fun m ir => stdMin m ir.starboard_distance)
        front.starboard_distance
    let pings1 :=
      if s.m_pings.isEmpty then
        s.m_pings ++ [{ front with port_distance := min_distance_port
                                   starboard_distance := min_distance_starboard }]
      else s.m_pings
    let back := (front :: rest).getLast (List.cons_ne_nil front rest)
    let pings2 :=
      pings1 ++ [{ back with port_distance := min_distance_port
                             starboard_distance := min_distance_starboard }]
    publishCoverage
      { s with m_pings := pings2
               m_interval_record := []
               m_interval_accumulated_distance := 0 }

/-- The ping record `pr` filled in by `depthCallback` (lines 45-50). -/
def depthCallback_pr (s : SonarCoverage) (data : Double) : PingRecord :=
  { heading := s.m_heading
    nadir_latitude := s.m_latitude
    nadir_longitude := s.m_longitude
    port_distance := data * Double.num s.m_port_tan
    starboard_distance := data * Double.num s.m_starboard_tan }

/-- The value of `m_interval_accumulated_distance` after lines 51-62 of
`depthCallback`: when the interval record is not empty, the distance returned by
`inverse` from the nadir of its last ping to the nadir of `pr` is added. -/
def depthCallback_distance (env : Env) (s : SonarCoverage) (pr : PingRecord) : ℚ :=
  match s.m_interval_record.getLast? with
  | some last =>
    let p1 : LatLon := { lat := last.nadir_latitude, lon := last.nadir_longitude }
    let p2 : LatLon := { lat := pr.nadir_latitude, lon := pr.nadir_longitude }
    let azimuth_distance := env.inverse p1 p2
    s.m_interval_accumulated_distance + azimuth_distance.2
  | none => s.m_interval_accumulated_distance

/-- The interval bookkeeping of `depthCallback` (lines 51-65): the distance from
the last buffered ping is added, the ping is buffered, and the interval is
processed when the accumulated distance exceeds `m_interval`. -/
def depthCallback_interval (env : Env) (s : SonarCoverage) (pr : PingRecord) :
    SonarCoverage :=
  let s2 :=
    { s with m_interval_accumulated_distance := depthCallback_distance env s pr
             m_interval_record := s.m_interval_record ++ [pr] }
  if s2.m_interval_accumulated_distance > s2.m_interval then processInterval s2 else s2

/-- The coordinate added to the sequence for a geodetic point: `x` is the
longitude (index 1) and `y` the latitude (index 0). -/
def toCoordinate (p : LatLon) : Coordinate := { x := p.lon, y := p.lat }

/-- The coordinate sequence of the footprint built by `depthCallback`
(lines 68-96). -/
def depthCallback_coordinates (env : Env) (s : SonarCoverage) (pr : PingRecord)
    (data : Double) : List Coordinate :=
  let coordinates : List Coordinate := []
  let nadir : LatLon := { lat := pr.nadir_latitude, lon := pr.nadir_longitude }
  let starboard_point := env.direct nadir (pr.heading + 90) pr.starboard_distance
  let alongship_half_distance := data * Double.num s.m_half_alongship_beamwidth_tan
  let starboard_fwd_point := env.direct starboard_point pr.heading alongship_half_distance
  let coordinates := coordinates ++ [toCoordinate starboard_fwd_point]
  let port_fwd_point :=
    env.direct starboard_fwd_point (pr.heading - 90) (pr.starboard_distance + pr.port_distance)
  let coordinates := coordinates ++ [toCoordinate port_fwd_point]
  let port_back_point :=
    env.direct port_fwd_point (pr.heading + 180) (2 * alongship_half_distance)
  let coordinates := coordinates ++ [toCoordinate port_back_point]
  let starboard_back_point :=
    env.direct port_back_point (pr.heading + 90) (pr.starboard_distance + pr.port_distance)
  let coordinates := coordinates ++ [toCoordinate starboard_back_point]
  coordinates ++ coordinates.head?.toList

/-- The call `createPolygon(createLinearRing(coordinates), nullptr)`: a polygon
with the given shell and no hole. -/
def createPolygon (coordinates : List Coordinate) : Polygon :=
  { exteriorRing := coordinates, holes := [] }

/-- The merge of the new footprint into the coverage in `depthCallback`
(lines 97-127). -/
def depthCallback_merge (env : Env) (s : SonarCoverage) (new_poly : Polygon) :
    SonarCoverage :=
  let s1 := { s with m_coverage := s.m_coverage ++ [new_poly] }
  let new_coverage := env.cascadedUnion s1.m_coverage
  let new_simplified_coverage := env.simplify (1 / 10000) new_coverage
  let s2 :=
    match new_simplified_coverage with
    | Geometry.polygon new_polygon => publishCoverage { s1 with m_coverage := [new_polygon] }
    | _ => s1
  match new_simplified_coverage with
  | Geometry.multiPolygon new_multiPolygon =>
    publishCoverage { s2 with m_coverage := new_multiPolygon }
  | _ => s2

/-- The test of line 42: heading and position are both younger than half a
second at time `now`. -/
def depthCallback_fresh (s : SonarCoverage) (now : Time) : Bool :=
  decide (now - s.m_last_heading_time < halfSecond)
    && decide (now - s.m_last_position_time < halfSecond)

/-- The method `depthCallback` (lines 39-131); `now` is the value of
`ros::Time::now()` and `data` the depth `data->data`. -/
def depthCallback (env : Env) (s : SonarCoverage) (now : Time) (data : Double) :
    SonarCoverage :=
  if depthCallback_fresh s now then
    let pr := depthCallback_pr s data
    let s1 := depthCallback_interval env s pr
    let new_poly := createPolygon (depthCallback_coordinates env s1 pr data)
    depthCallback_merge env s1 new_poly
  else s

/-- The method `headingCallback` (lines 133-138). -/
def headingCallback (s : SonarCoverage) (heading : ℚ) (stamp : Time) : SonarCoverage :=
  { s with m_heading := heading, m_last_heading_time := stamp }

/-- The method `positionCallback` (lines 140-146). -/
def positionCallback (s : SonarCoverage) (latitude longitude : ℚ) (stamp : Time) :
    SonarCoverage :=
  { s with m_latitude := latitude, m_longitude := longitude, m_last_position_time := stamp }

/-- The method `resetCallback` (lines 226-232); the value of the message is not
read. -/
def resetCallback (s : SonarCoverage) (_data : Bool) : SonarCoverage :=
  publishCoverage
    { s with m_interval_record := []
             m_interval_accumulated_distance := 0
             m_pings := [] }

end SonarCoverage

/-- A message delivered to the nodelet: one constructor per subscription of
`onInit` (lines 30-33). -/
inductive Message where
  | depth (now : Time) (data : Double)
  | heading (heading : ℚ) (stamp : Time)
  | position (latitude longitude : ℚ) (stamp : Time)
  | sim_reset (data : Bool)
deriving DecidableEq, Repr

/-- The callback `onInit` subscribed for a message. -/
def dispatch (env : Env) (s : SonarCoverage) : Message → SonarCoverage
  | Message.depth now data => s.depthCallback env now data
  | Message.heading h stamp => s.headingCallback h stamp
  | Message.position lat lon stamp => s.positionCallback lat lon stamp
  | Message.sim_reset data => s.resetCallback data

/-- The state after a sequence of messages, handled one at a time starting from
the constructed object. -/
def run (env : Env) (heading latitude longitude : ℚ) (msgs : List Message) :
    SonarCoverage :=
  msgs.foldl (dispatch env) (SonarCoverage.construct env heading latitude longitude)

/-- The sum, in buffer order, of the inverse-geodesic distances between the nadirs
of consecutive pings. -/
def consecutiveDistance (env : Env) : List PingRecord → ℚ
  | [] => 0
  | [_] => 0
  | a :: b :: rest =>
    (env.inverse { lat := a.nadir_latitude, lon := a.nadir_longitude }
        { lat := b.nadir_latitude, lon := b.nadir_longitude }).2
      + consecutiveDistance env (b :: rest)

/-- A ring vertex that is a geodetic position: the latitude `y` lies in
`[-90, 90]` and the longitude `x` in `[-180, 180]`. -/
def validGeodetic (c : Coordinate) : Prop :=
  -90 ≤ c.y ∧ c.y ≤ 90 ∧ -180 ≤ c.x ∧ c.x ≤ 180

instance : DecidablePred validGeodetic := fun c => by
  unfold validGeodetic; infer_instance

/-- An environment for concrete runs: a flat earth on which `direct` moves a
point along the axes for the four cardinal azimuths (and leaves it in place for a
NaN distance), `inverse` measures the taxicab distance, the union of one polygon
is that polygon and of several is their collection, and simplification changes
nothing. -/
def flatEnv : Env :=
  { M_PI := 22 / 7
    tan := fun x => x
    direct := fun p azimuth distance =>
      match distance with
      | Double.nan => p
      | Double.num d =>
        if azimuth = 0 then { p with lat := p.lat + d }
        else if azimuth = 90 then { p with lon := p.lon + d }
        else if azimuth = 180 then { p with lat := p.lat - d }
        else if azimuth = -90 then { p with lon := p.lon - d }
        else p
    inverse := fun p q => (0, |q.lat - p.lat| + |q.lon - p.lon|)
    cascadedUnion := fun ps =>
      match ps with
      | [] => Geometry.other
      | [p] => Geometry.polygon p
      | _ => Geometry.multiPolygon ps
    simplify := fun _ g => g }

/-- The environment `flatEnv` with a simplifier whose result is neither a polygon
nor a collection of polygons. -/
def otherEnv : Env :=
  { flatEnv with simplify := fun _ _ => Geometry.other }

/-- The accumulated distance is the sum of the distances between consecutive
buffered pings. -/
def SonarCoverage.distanceInvariant (env : Env) (s : SonarCoverage) : Prop :=
  s.m_interval_accumulated_distance = consecutiveDistance env s.m_interval_record

/-! ## Lemmas on the members each method touches -/

namespace SonarCoverage

theorem publishCoverage_gpath_foldl (coverage : List Polygon) (poses : List GeoPoseStamped) :
    coverage.foldl (fun poses p => poses ++ publishCoverage_polygon p) poses
      = poses ++ (coverage.map publishCoverage_polygon).flatten := by
  induction coverage generalizing poses with
  | nil => simp
  | cons p ps ih => simp [ih, List.append_assoc]

theorem publishCoverage_gpath_poses (coverage : List Polygon) :
    (publishCoverage_gpath coverage).poses
      = (coverage.map publishCoverage_polygon).flatten := by
  simp [publishCoverage_gpath, publishCoverage_gpath_foldl]

theorem count_sentinel_polygon (p : Polygon) (h : ∀ c ∈ p.exteriorRing, validGeodetic c) :
    (publishCoverage_polygon p).count { latitude := -91, longitude := -181 } = 1 := by
  unfold publishCoverage_polygon
  rw [List.count_append]
  have h0 : (p.exteriorRing.map
      (fun c => ({ latitude := c.y, longitude := c.x } : GeoPoseStamped))).count
      { latitude := -91, longitude := -181 } = 0 := by
    rw [List.count_eq_zero]
    intro hmem
    obtain ⟨c, hc, heq⟩ := List.mem_map.1 hmem
    have hv := h c hc
    unfold validGeodetic at hv
    have hy : c.y = -91 := by injection heq
    rw [hy] at hv
    norm_num at hv
  rw [h0]
  simp

theorem depthCallback_fresh_iff (s : SonarCoverage) (now : Time) :
    depthCallback_fresh s now = true
      ↔ now - s.m_last_heading_time < halfSecond ∧ now - s.m_last_position_time < halfSecond := by
  simp [depthCallback_fresh]

theorem processInterval_cons (s : SonarCoverage) (front : PingRecord) (rest : List PingRecord)
    (h : s.m_interval_record = front :: rest) :
    processInterval s
      = { s with
          m_pings :=
            (if s.m_pings.isEmpty then
              s.m_pings ++
                [{ front with
                   port_distance :=
                     (front :: rest).foldl (fun m ir => stdMin m ir.port_distance)
                       front.port_distance
                   starboard_distance :=
                     (front :: rest).foldl (fun m ir => stdMin m ir.starboard_distance)
                       front.starboard_distance }]
             else s.m_pings) ++
              [{ (front :: rest).getLast (List.cons_ne_nil front rest) with
                 port_distance :=
                   (front :: rest).foldl (fun m ir => stdMin m ir.port_distance)
                     front.port_distance
                 starboard_distance :=
                   (front :: rest).foldl (fun m ir => stdMin m ir.starboard_distance)
                     front.starboard_distance }]
          m_interval_record := []
          m_interval_accumulated_distance := 0
          m_coverage_pub := s.m_coverage_pub ++ [publishCoverage_gpath s.m_coverage] } := by
  unfold processInterval
  rw [h]
  rfl

theorem processInterval_nil (s : SonarCoverage) (h : s.m_interval_record = []) :
    processInterval s = s := by
  unfold processInterval
  rw [h]

theorem processInterval_coverage (s : SonarCoverage) :
    (processInterval s).m_coverage = s.m_coverage := by
  unfold processInterval
  split <;> rfl

theorem processInterval_interval (s : SonarCoverage) :
    (processInterval s).m_interval = s.m_interval := by
  unfold processInterval
  split <;> rfl

theorem processInterval_half_tan (s : SonarCoverage) :
    (processInterval s).m_half_alongship_beamwidth_tan = s.m_half_alongship_beamwidth_tan := by
  unfold processInterval
  split <;> rfl

theorem processInterval_record (s : SonarCoverage) :
    (processInterval s).m_interval_record = [] := by
  unfold processInterval
  split
  · assumption
  · rfl

theorem processInterval_distance (s : SonarCoverage) (h : s.m_interval_record ≠ []) :
    (processInterval s).m_interval_accumulated_distance = 0 := by
  cases hr : s.m_interval_record with
  | nil => exact absurd hr h
  | cons front rest => rw [processInterval_cons s front rest hr]

theorem processInterval_pub (s : SonarCoverage) (h : s.m_interval_record ≠ []) :
    (processInterval s).m_coverage_pub
      = s.m_coverage_pub ++ [publishCoverage_gpath s.m_coverage] := by
  cases hr : s.m_interval_record with
  | nil => exact absurd hr h
  | cons front rest => rw [processInterval_cons s front rest hr]

theorem processInterval_pings_length (s : SonarCoverage) (h : s.m_interval_record ≠ []) :
    s.m_pings.length < (processInterval s).m_pings.length := by
  cases hr : s.m_interval_record with
  | nil => exact absurd hr h
  | cons front rest =>
    rw [processInterval_cons s front rest hr]
    by_cases hp : s.m_pings.isEmpty = true
    · simp [hp]
    · simp [hp]

theorem depthCallback_interval_flush (env : Env) (s : SonarCoverage) (pr : PingRecord)
    (h : depthCallback_distance env s pr > s.m_interval) :
    depthCallback_interval env s pr
      = processInterval
          { s with m_interval_accumulated_distance := depthCallback_distance env s pr
                   m_interval_record := s.m_interval_record ++ [pr] } := by
  unfold depthCallback_interval
  simp only [h, if_true]

theorem depthCallback_interval_keep (env : Env) (s : SonarCoverage) (pr : PingRecord)
    (h : ¬ depthCallback_distance env s pr > s.m_interval) :
    depthCallback_interval env s pr
      = { s with m_interval_accumulated_distance := depthCallback_distance env s pr
                 m_interval_record := s.m_interval_record ++ [pr] } := by
  unfold depthCallback_interval
  simp only [h, if_false]

theorem depthCallback_interval_coverage (env : Env) (s : SonarCoverage) (pr : PingRecord) :
    (depthCallback_interval env s pr).m_coverage = s.m_coverage := by
  by_cases h : depthCallback_distance env s pr > s.m_interval
  · rw [depthCallback_interval_flush env s pr h, processInterval_coverage]
  · rw [depthCallback_interval_keep env s pr h]

theorem depthCallback_interval_half_tan (env : Env) (s : SonarCoverage) (pr : PingRecord) :
    (depthCallback_interval env s pr).m_half_alongship_beamwidth_tan
      = s.m_half_alongship_beamwidth_tan := by
  by_cases h : depthCallback_distance env s pr > s.m_interval
  · rw [depthCallback_interval_flush env s pr h, processInterval_half_tan]
  · rw [depthCallback_interval_keep env s pr h]

theorem depthCallback_interval_pub (env : Env) (s : SonarCoverage) (pr : PingRecord) :
    (depthCallback_interval env s pr).m_coverage_pub
      = if depthCallback_distance env s pr > s.m_interval then
          s.m_coverage_pub ++ [publishCoverage_gpath s.m_coverage]
        else s.m_coverage_pub := by
  by_cases h : depthCallback_distance env s pr > s.m_interval
  · rw [depthCallback_interval_flush env s pr h, processInterval_pub _ (by simp), if_pos h]
  · rw [depthCallback_interval_keep env s pr h, if_neg h]

theorem depthCallback_merge_eq (env : Env) (s : SonarCoverage) (new_poly : Polygon) :
    depthCallback_merge env s new_poly
      = match env.simplify (1 / 10000) (env.cascadedUnion (s.m_coverage ++ [new_poly])) with
        | Geometry.polygon p =>
          { s with m_coverage := [p]
                   m_coverage_pub := s.m_coverage_pub ++ [publishCoverage_gpath [p]] }
        | Geometry.multiPolygon ps =>
          { s with m_coverage := ps
                   m_coverage_pub := s.m_coverage_pub ++ [publishCoverage_gpath ps] }
        | Geometry.other => { s with m_coverage := s.m_coverage ++ [new_poly] } := by
  unfold depthCallback_merge
  dsimp only
  generalize env.simplify (1 / 10000) (env.cascadedUnion (s.m_coverage ++ [new_poly])) = g
  cases g <;> rfl

theorem depthCallback_merge_record (env : Env) (s : SonarCoverage) (new_poly : Polygon) :
    (depthCallback_merge env s new_poly).m_interval_record = s.m_interval_record := by
  rw [depthCallback_merge_eq]
  split <;> rfl

theorem depthCallback_merge_pings (env : Env) (s : SonarCoverage) (new_poly : Polygon) :
    (depthCallback_merge env s new_poly).m_pings = s.m_pings := by
  rw [depthCallback_merge_eq]
  split <;> rfl

theorem depthCallback_merge_distance (env : Env) (s : SonarCoverage) (new_poly : Polygon) :
    (depthCallback_merge env s new_poly).m_interval_accumulated_distance
      = s.m_interval_accumulated_distance := by
  rw [depthCallback_merge_eq]
  split <;> rfl

theorem depthCallback_merge_interval (env : Env) (s : SonarCoverage) (new_poly : Polygon) :
    (depthCallback_merge env s new_poly).m_interval = s.m_interval := by
  rw [depthCallback_merge_eq]
  split <;> rfl

theorem depthCallback_merge_other (env : Env) (s : SonarCoverage) (new_poly : Polygon)
    (h1 : ∀ p, env.simplify (1 / 10000) (env.cascadedUnion (s.m_coverage ++ [new_poly]))
      ≠ Geometry.polygon p)
    (h2 : ∀ ps, env.simplify (1 / 10000) (env.cascadedUnion (s.m_coverage ++ [new_poly]))
      ≠ Geometry.multiPolygon ps) :
    depthCallback_merge env s new_poly = { s with m_coverage := s.m_coverage ++ [new_poly] } := by
  rw [depthCallback_merge_eq]
  split
  · rename_i p hp
    exact absurd hp (h1 p)
  · rename_i ps hps
    exact absurd hps (h2 ps)
  · rfl

theorem depthCallback_of_fresh (env : Env) (s : SonarCoverage) (now : Time) (data : Double)
    (h : depthCallback_fresh s now = true) :
    depthCallback env s now data
      = depthCallback_merge env (depthCallback_interval env s (depthCallback_pr s data))
          (createPolygon
            (depthCallback_coordinates env (depthCallback_interval env s (depthCallback_pr s data))
              (depthCallback_pr s data) data)) := by
  unfold depthCallback
  simp only [h, if_true]

theorem depthCallback_of_stale (env : Env) (s : SonarCoverage) (now : Time) (data : Double)
    (h : depthCallback_fresh s now = false) :
    depthCallback env s now data = s := by
  unfold depthCallback
  simp [h]

theorem depthCallback_coordinates_half_tan (env : Env) (s t : SonarCoverage) (pr : PingRecord)
    (data : Double) (h : t.m_half_alongship_beamwidth_tan = s.m_half_alongship_beamwidth_tan) :
    depthCallback_coordinates env t pr data = depthCallback_coordinates env s pr data := by
  unfold depthCallback_coordinates
  rw [h]

theorem resetCallback_eq (s : SonarCoverage) (data : Bool) :
    resetCallback s data
      = { s with m_interval_record := []
                 m_interval_accumulated_distance := 0
                 m_pings := []
                 m_coverage_pub := s.m_coverage_pub ++ [publishCoverage_gpath s.m_coverage] } :=
  rfl

theorem processInterval_pings (s : SonarCoverage) (front : PingRecord) (rest : List PingRecord)
    (h : s.m_interval_record = front :: rest) :
    (processInterval s).m_pings
      = s.m_pings ++
          (if s.m_pings.isEmpty then
            [{ front with
               port_distance :=
                 (front :: rest).foldl (fun m ir => stdMin m ir.port_distance)
                   front.port_distance
               starboard_distance :=
                 (front :: rest).foldl (fun m ir => stdMin m ir.starboard_distance)
                   front.starboard_distance },
             { (front :: rest).getLast (List.cons_ne_nil front rest) with
               port_distance :=
                 (front :: rest).foldl (fun m ir => stdMin m ir.port_distance)
                   front.port_distance
               starboard_distance :=
                 (front :: rest).foldl (fun m ir => stdMin m ir.starboard_distance)
                   front.starboard_distance }]
           else
            [{ (front :: rest).getLast (List.cons_ne_nil front rest) with
               port_distance :=
                 (front :: rest).foldl (fun m ir => stdMin m ir.port_distance)
                   front.port_distance
               starboard_distance :=
                 (front :: rest).foldl (fun m ir => stdMin m ir.starboard_distance)
                   front.starboard_distance }]) := by
  rw [processInterval_cons s front rest h]
  by_cases hp : s.m_pings.isEmpty = true
  · simp [hp]
  · simp [hp]

end SonarCoverage

theorem Double_num_lt_num (x y : ℚ) : (Double.num x < Double.num y) ↔ x < y := by
  show Double.lt (Double.num x) (Double.num y) = true ↔ x < y
  simp [Double.lt]

theorem Double_num_le_num (x y : ℚ) : (Double.num x ≤ Double.num y) ↔ x ≤ y := by
  show Double.le (Double.num x) (Double.num y) = true ↔ x ≤ y
  simp [Double.le]

theorem Double_le_trans {a b c : Double} (hab : a ≤ b) (hbc : b ≤ c) : a ≤ c := by
  cases a with
  | nan => exact absurd hab (by show ¬ (Double.le Double.nan b = true); simp [Double.le])
  | num x =>
    cases b with
    | nan => exact absurd hab (by show ¬ (Double.le (Double.num x) Double.nan = true)
                                  simp [Double.le])
    | num y =>
      cases c with
      | nan => exact absurd hbc (by show ¬ (Double.le (Double.num y) Double.nan = true)
                                    simp [Double.le])
      | num z =>
        rw [Double_num_le_num] at hab hbc ⊢
        exact le_trans hab hbc

theorem stdMin_eq (a b : Double) : stdMin a b = a ∨ stdMin a b = b := by
  unfold stdMin
  split
  · right; rfl
  · left; rfl

theorem stdMin_ne_nan (a b : Double) (ha : a ≠ Double.nan) (hb : b ≠ Double.nan) :
    stdMin a b ≠ Double.nan := by
  rcases stdMin_eq a b with h | h <;> rw [h] <;> assumption

theorem stdMin_le_left (a b : Double) (ha : a ≠ Double.nan) : stdMin a b ≤ a := by
  cases a with
  | nan => exact absurd rfl ha
  | num x =>
    cases b with
    | nan =>
      have h : stdMin (Double.num x) Double.nan = Double.num x := by
        unfold stdMin
        rw [if_neg]
        show ¬ (Double.lt Double.nan (Double.num x) = true)
        simp [Double.lt]
      rw [h, Double_num_le_num]
    | num y =>
      unfold stdMin
      by_cases hyx : y < x
      · rw [if_pos ((Double_num_lt_num y x).2 hyx), Double_num_le_num]
        exact le_of_lt hyx
      · rw [if_neg (fun h => hyx ((Double_num_lt_num y x).1 h)), Double_num_le_num]

theorem stdMin_le_right (a b : Double) (ha : a ≠ Double.nan) (hb : b ≠ Double.nan) :
    stdMin a b ≤ b := by
  cases a with
  | nan => exact absurd rfl ha
  | num x =>
    cases b with
    | nan => exact absurd rfl hb
    | num y =>
      unfold stdMin
      by_cases hyx : y < x
      · rw [if_pos ((Double_num_lt_num y x).2 hyx), Double_num_le_num]
      · rw [if_neg (fun h => hyx ((Double_num_lt_num y x).1 h)), Double_num_le_num]
        exact not_lt.1 hyx

theorem foldl_stdMin_ne_nan (f : PingRecord → Double) (l : List PingRecord) (init : Double)
    (hinit : init ≠ Double.nan) (hl : ∀ p ∈ l, f p ≠ Double.nan) :
    l.foldl (fun m ir => stdMin m (f ir)) init ≠ Double.nan := by
  induction l generalizing init with
  | nil => exact hinit
  | cons p ps ih =>
    exact ih _ (stdMin_ne_nan _ _ hinit (hl p (List.mem_cons_self p ps)))
      (fun q hq => hl q (List.mem_cons_of_mem p hq))

theorem foldl_stdMin_le_init (f : PingRecord → Double) (l : List PingRecord) (init : Double)
    (hinit : init ≠ Double.nan) (hl : ∀ p ∈ l, f p ≠ Double.nan) :
    l.foldl (fun m ir => stdMin m (f ir)) init ≤ init := by
  induction l generalizing init with
  | nil =>
    cases init with
    | nan => exact absurd rfl hinit
    | num x => exact (Double_num_le_num x x).2 (le_refl x)
  | cons p ps ih =>
    exact Double_le_trans
      (ih _ (stdMin_ne_nan _ _ hinit (hl p (List.mem_cons_self p ps)))
        (fun q hq => hl q (List.mem_cons_of_mem p hq)))
      (stdMin_le_left _ _ hinit)

theorem foldl_stdMin_le_mem (f : PingRecord → Double) (l : List PingRecord) (init : Double)
    (hinit : init ≠ Double.nan) (hl : ∀ p ∈ l, f p ≠ Double.nan)
    (p : PingRecord) (hp : p ∈ l) :
    l.foldl (fun m ir => stdMin m (f ir)) init ≤ f p := by
  induction l generalizing init with
  | nil => cases hp
  | cons q qs ih =>
    have hq := hl q (List.mem_cons_self q qs)
    have hqs : ∀ r ∈ qs, f r ≠ Double.nan := fun r hr => hl r (List.mem_cons_of_mem q hr)
    rcases List.mem_cons.1 hp with h | h
    · subst h
      exact Double_le_trans
        (foldl_stdMin_le_init f qs _ (stdMin_ne_nan _ _ hinit hq) hqs)
        (stdMin_le_right _ _ hinit hq)
    · exact ih _ (stdMin_ne_nan _ _ hinit hq) hqs h

theorem foldl_stdMin_attained (f : PingRecord → Double) (l : List PingRecord) (init : Double) :
    l.foldl (fun m ir => stdMin m (f ir)) init = init
      ∨ ∃ p ∈ l, l.foldl (fun m ir => stdMin m (f ir)) init = f p := by
  induction l generalizing init with
  | nil => left; rfl
  | cons q qs ih =>
    rw [List.foldl_cons]
    rcases ih (stdMin init (f q)) with h | ⟨p, hp, h⟩
    · rcases stdMin_eq init (f q) with h1 | h1
      · left
        rw [h, h1]
      · right
        exact ⟨q, List.mem_cons_self q qs, by rw [h, h1]⟩
    · right
      exact ⟨p, List.mem_cons_of_mem q hp, h⟩

/-- The fold of `processInterval` over a record that starts with `front`, begun at
the value of `front`, is a lower bound of the values in the record and is one of
them, when none of the values is NaN. -/
theorem foldl_stdMin_front (f : PingRecord → Double) (front : PingRecord)
    (rest : List PingRecord) (hl : ∀ p ∈ front :: rest, f p ≠ Double.nan) :
    (∀ p ∈ front :: rest, (front :: rest).foldl (fun m ir => stdMin m (f ir)) (f front) ≤ f p)
      ∧ ∃ p ∈ front :: rest,
          (front :: rest).foldl (fun m ir => stdMin m (f ir)) (f front) = f p := by
  constructor
  · intro p hp
    exact foldl_stdMin_le_mem f _ _ (hl front (List.mem_cons_self front rest)) hl p hp
  · rcases foldl_stdMin_attained f (front :: rest) (f front) with h | h
    · exact ⟨front, List.mem_cons_self front rest, h⟩
    · exact h

namespace SonarCoverage

end SonarCoverage

theorem consecutiveDistance_append (env : Env) (l : List PingRecord) (last x : PingRecord)
    (h : l.getLast? = some last) :
    consecutiveDistance env (l ++ [x])
      = consecutiveDistance env l
        + (env.inverse { lat := last.nadir_latitude, lon := last.nadir_longitude }
            { lat := x.nadir_latitude, lon := x.nadir_longitude }).2 := by
  induction l with
  | nil => simp at h
  | cons a t ih =>
    cases t with
    | nil =>
      simp only [List.getLast?_singleton, Option.some.injEq] at h
      subst h
      simp [consecutiveDistance]
    | cons b t2 =>
      rw [List.getLast?_cons_cons] at h
      have ih2 := ih h
      show (env.inverse { lat := a.nadir_latitude, lon := a.nadir_longitude }
            { lat := b.nadir_latitude, lon := b.nadir_longitude }).2
          + consecutiveDistance env (b :: t2 ++ [x])
        = (env.inverse { lat := a.nadir_latitude, lon := a.nadir_longitude }
            { lat := b.nadir_latitude, lon := b.nadir_longitude }).2
          + consecutiveDistance env (b :: t2) + _
      rw [ih2]
      ring

namespace SonarCoverage

theorem depthCallback_interval_invariant (env : Env) (s : SonarCoverage) (pr : PingRecord)
    (h : distanceInvariant env s) :
    distanceInvariant env (depthCallback_interval env s pr) := by
  unfold distanceInvariant at h ⊢
  by_cases hflush : depthCallback_distance env s pr > s.m_interval
  · rw [depthCallback_interval_flush env s pr hflush, processInterval_record,
      processInterval_distance _ (by simp)]
    rfl
  · rw [depthCallback_interval_keep env s pr hflush]
    show depthCallback_distance env s pr = consecutiveDistance env (s.m_interval_record ++ [pr])
    unfold depthCallback_distance
    cases hl : s.m_interval_record.getLast? with
    | none =>
      have hnil : s.m_interval_record = [] := List.getLast?_eq_none_iff.1 hl
      rw [hnil] at h ⊢
      simp only [h, List.nil_append, consecutiveDistance]
    | some last =>
      rw [consecutiveDistance_append env _ last pr hl, h]

theorem depthCallback_invariant (env : Env) (s : SonarCoverage) (now : Time) (data : Double)
    (h : distanceInvariant env s) :
    distanceInvariant env (depthCallback env s now data) := by
  cases hf : depthCallback_fresh s now with
  | false => rw [depthCallback_of_stale env s now data hf]; exact h
  | true =>
    rw [depthCallback_of_fresh env s now data hf]
    have h1 := depthCallback_interval_invariant env s (depthCallback_pr s data) h
    unfold distanceInvariant at h1 ⊢
    rw [depthCallback_merge_distance, depthCallback_merge_record]
    exact h1

end SonarCoverage

theorem dispatch_invariant (env : Env) (s : SonarCoverage) (msg : Message)
    (h : SonarCoverage.distanceInvariant env s) :
    SonarCoverage.distanceInvariant env (dispatch env s msg) := by
  cases msg with
  | depth now data => exact SonarCoverage.depthCallback_invariant env s now data h
  | heading hd stamp => exact h
  | position lat lon stamp => exact h
  | sim_reset data => rfl

theorem foldl_dispatch_invariant (env : Env) (msgs : List Message) (s : SonarCoverage)
    (h : SonarCoverage.distanceInvariant env s) :
    SonarCoverage.distanceInvariant env (msgs.foldl (dispatch env) s) := by
  induction msgs generalizing s with
  | nil => exact h
  | cons m ms ih => exact ih _ (dispatch_invariant env s m h)

namespace SonarCoverage

theorem depthCallback_frame (env : Env) (s : SonarCoverage) (now : Time) (data : Double) :
    (depthCallback env s now data).m_interval = s.m_interval
      ∧ (depthCallback env s now data).m_last_heading_time = s.m_last_heading_time
      ∧ (depthCallback env s now data).m_last_position_time = s.m_last_position_time := by
  cases hf : depthCallback_fresh s now with
  | false => rw [depthCallback_of_stale env s now data hf]; exact ⟨rfl, rfl, rfl⟩
  | true =>
    rw [depthCallback_of_fresh env s now data hf]
    have hi : (depthCallback_interval env s (depthCallback_pr s data)).m_interval = s.m_interval
        ∧ (depthCallback_interval env s (depthCallback_pr s data)).m_last_heading_time
            = s.m_last_heading_time
        ∧ (depthCallback_interval env s (depthCallback_pr s data)).m_last_position_time
            = s.m_last_position_time := by
      by_cases hflush : depthCallback_distance env s (depthCallback_pr s data) > s.m_interval
      · rw [depthCallback_interval_flush env s _ hflush]
        unfold processInterval
        split <;> exact ⟨rfl, rfl, rfl⟩
      · rw [depthCallback_interval_keep env s _ hflush]
        exact ⟨rfl, rfl, rfl⟩
    rw [depthCallback_merge_eq]
    split <;> exact hi

theorem depthCallback_keep (env : Env) (s : SonarCoverage) (now : Time) (data : Double)
    (hf : depthCallback_fresh s now = true)
    (hk : ¬ depthCallback_distance env s (depthCallback_pr s data) > s.m_interval) :
    (depthCallback env s now data).m_interval_record
        = s.m_interval_record ++ [depthCallback_pr s data]
      ∧ (depthCallback env s now data).m_pings = s.m_pings
      ∧ (depthCallback env s now data).m_interval_accumulated_distance
          = depthCallback_distance env s (depthCallback_pr s data) := by
  rw [depthCallback_of_fresh env s now data hf, depthCallback_merge_record,
    depthCallback_merge_pings, depthCallback_merge_distance,
    depthCallback_interval_keep env s _ hk]
  exact ⟨rfl, rfl, rfl⟩

theorem depthCallback_flush (env : Env) (s : SonarCoverage) (now : Time) (data : Double)
    (hf : depthCallback_fresh s now = true)
    (hfl : depthCallback_distance env s (depthCallback_pr s data) > s.m_interval) :
    (depthCallback env s now data).m_interval_record = []
      ∧ (depthCallback env s now data).m_interval_accumulated_distance = 0
      ∧ (depthCallback env s now data).m_pings
          = (processInterval
              { s with
                m_interval_accumulated_distance :=
                  depthCallback_distance env s (depthCallback_pr s data)
                m_interval_record := s.m_interval_record ++ [depthCallback_pr s data] }).m_pings := by
  rw [depthCallback_of_fresh env s now data hf, depthCallback_merge_record,
    depthCallback_merge_pings, depthCallback_merge_distance,
    depthCallback_interval_flush env s _ hfl]
  exact ⟨processInterval_record _, processInterval_distance _ (by simp), rfl⟩

end SonarCoverage

theorem dispatch_interval (env : Env) (s : SonarCoverage) (msg : Message) :
    (dispatch env s msg).m_interval = s.m_interval := by
  cases msg with
  | depth now data => exact (SonarCoverage.depthCallback_frame env s now data).1
  | heading hd stamp => rfl
  | position lat lon stamp => rfl
  | sim_reset data => rfl

theorem foldl_dispatch_interval (env : Env) (msgs : List Message) (s : SonarCoverage) :
    (msgs.foldl (dispatch env) s).m_interval = s.m_interval := by
  induction msgs generalizing s with
  | nil => rfl
  | cons m ms ih =>
    rw [List.foldl_cons, ih, dispatch_interval]

namespace SonarCoverage

end SonarCoverage

/-! ## The published path -/

/-- C8: the path built by `publishCoverage` is the concatenation, in coverage
order, of one block per polygon, each block being the exterior-ring vertices in
ring order (a vertex `(x, y)` as latitude `y`, longitude `x`) followed by one
point `(-91, -181)`; its length is the sum of the ring lengths plus the number of
polygons; when every ring vertex is a valid geodetic coordinate the number of
points `(-91, -181)` is the number of polygons; the path is empty iff the coverage
is empty; and `publishCoverage` publishes exactly this path. -/
theorem C8_publishCoverage_path (coverage : List Polygon) :
    (SonarCoverage.publishCoverage_gpath coverage).poses
        = (coverage.map (fun p =>
            p.exteriorRing.map (fun c => GeoPoseStamped.mk c.y c.x)
              ++ [GeoPoseStamped.mk (-91) (-181)])).flatten
      ∧ (SonarCoverage.publishCoverage_gpath coverage).poses.length
          = (coverage.map (fun p => p.exteriorRing.length)).sum + coverage.length
      ∧ ((∀ p ∈ coverage, ∀ c ∈ p.exteriorRing, validGeodetic c) →
          (SonarCoverage.publishCoverage_gpath coverage).poses.count
            (GeoPoseStamped.mk (-91) (-181)) = coverage.length)
      ∧ ((SonarCoverage.publishCoverage_gpath coverage).poses = [] ↔ coverage = [])
      ∧ (∀ s : SonarCoverage, s.m_coverage = coverage →
          s.publishCoverage.m_coverage_pub
            = s.m_coverage_pub ++ [SonarCoverage.publishCoverage_gpath coverage]) := by
  refine ⟨?_, ?_, ?_, ?_, ?_⟩
  · rw [SonarCoverage.publishCoverage_gpath_poses]
    rfl
  · rw [SonarCoverage.publishCoverage_gpath_poses]
    induction coverage with
    | nil => rfl
    | cons p ps ih =>
      simp only [List.map_cons, List.flatten_cons, List.length_append, ih, List.sum_cons,
        List.length_cons]
      simp only [SonarCoverage.publishCoverage_polygon, List.length_append, List.length_map,
        List.length_singleton]
      omega
  · intro h
    rw [SonarCoverage.publishCoverage_gpath_poses]
    induction coverage with
    | nil => rfl
    | cons p ps ih =>
      simp only [List.map_cons, List.flatten_cons, List.count_append, List.length_cons]
      rw [ih (fun q hq => h q (List.mem_cons_of_mem p hq))]
      have h1 := SonarCoverage.count_sentinel_polygon p (h p (List.mem_cons_self p ps))
      rw [h1]
      omega
  · rw [SonarCoverage.publishCoverage_gpath_poses]
    cases coverage with
    | nil => simp
    | cons p ps => simp [SonarCoverage.publishCoverage_polygon]
  · intro s hs
    rw [← hs]
    rfl

/-- C8 at a coverage of two polygons, a triangle-shaped ring and a two-vertex
ring: the path has 4 + 2 + 2 points, two of them `(-91, -181)`. -/
theorem C8_publishCoverage_path_witness :
    (SonarCoverage.publishCoverage_gpath
        [{ exteriorRing := [⟨0, 0⟩, ⟨1, 0⟩, ⟨0, 1⟩, ⟨0, 0⟩], holes := [] },
         { exteriorRing := [⟨2, 2⟩, ⟨3, 3⟩], holes := [] }]).poses.length = 8
      ∧ (SonarCoverage.publishCoverage_gpath
        [{ exteriorRing := [⟨0, 0⟩, ⟨1, 0⟩, ⟨0, 1⟩, ⟨0, 0⟩], holes := [] },
         { exteriorRing := [⟨2, 2⟩, ⟨3, 3⟩], holes := [] }]).poses.count
          (GeoPoseStamped.mk (-91) (-181)) = 2 :=
  ⟨by decide,
   (C8_publishCoverage_path
      [{ exteriorRing := [⟨0, 0⟩, ⟨1, 0⟩, ⟨0, 1⟩, ⟨0, 0⟩], holes := [] },
       { exteriorRing := [⟨2, 2⟩, ⟨3, 3⟩], holes := [] }]).2.2.1 (by decide)⟩

/-! ## Reset -/

/-- C1, evaluated on the code: `resetCallback` does not touch `m_coverage`.  After
a heading, a position and one depth reading the coverage holds one polygon; the
reset that follows empties the interval record and the reduced pings and zeroes
the accumulated distance, but the coverage still holds that polygon and the path
the reset publishes has 6 points. -/
theorem C1_resetCallback_keeps_coverage :
    (run flatEnv 0 0 0
        [Message.heading 0 100, Message.position 0 0 100, Message.depth 101 10,
         Message.sim_reset true]).m_interval_record = []
      ∧ (run flatEnv 0 0 0
        [Message.heading 0 100, Message.position 0 0 100, Message.depth 101 10,
         Message.sim_reset true]).m_pings = []
      ∧ (run flatEnv 0 0 0
        [Message.heading 0 100, Message.position 0 0 100, Message.depth 101 10,
         Message.sim_reset true]).m_coverage
          = (run flatEnv 0 0 0
              [Message.heading 0 100, Message.position 0 0 100,
               Message.depth 101 10]).m_coverage
      ∧ (run flatEnv 0 0 0
        [Message.heading 0 100, Message.position 0 0 100, Message.depth 101 10,
         Message.sim_reset true]).m_coverage.length = 1
      ∧ (run flatEnv 0 0 0
        [Message.heading 0 100, Message.position 0 0 100, Message.depth 101 10,
         Message.sim_reset true]).m_coverage_pub.getLast?.map (fun g => g.poses.length)
          = some 6 := by
  decide!

/-! ## Stale samples -/

/-- C7: a depth sample received when the heading or the position is at least half
a second old leaves the whole object unchanged (coverage, interval record,
accumulated distance, reduced pings and the published messages); and the sample
changes the interval record or the reduced pings exactly when both ages are
strictly below half a second. -/
theorem C7_depthCallback_stale (env : Env) (s : SonarCoverage) (now : Time) (data : Double) :
    ((halfSecond ≤ now - s.m_last_heading_time ∨ halfSecond ≤ now - s.m_last_position_time) →
        s.depthCallback env now data = s)
      ∧ (((s.depthCallback env now data).m_interval_record ≠ s.m_interval_record
            ∨ (s.depthCallback env now data).m_pings ≠ s.m_pings)
          ↔ (now - s.m_last_heading_time < halfSecond
              ∧ now - s.m_last_position_time < halfSecond)) := by
  constructor
  · intro h
    apply SonarCoverage.depthCallback_of_stale
    cases hf : s.depthCallback_fresh now with
    | false => rfl
    | true =>
      have hlt := (SonarCoverage.depthCallback_fresh_iff s now).1 hf
      rcases h with h | h
      · exact absurd hlt.1 (not_lt.2 h)
      · exact absurd hlt.2 (not_lt.2 h)
  · constructor
    · intro hchg
      by_contra hnot
      have hf : s.depthCallback_fresh now = false := by
        cases hf : s.depthCallback_fresh now with
        | false => rfl
        | true => exact absurd ((SonarCoverage.depthCallback_fresh_iff s now).1 hf) hnot
      rw [SonarCoverage.depthCallback_of_stale env s now data hf] at hchg
      rcases hchg with h | h <;> exact h rfl
    · intro hfresh
      have hf := (SonarCoverage.depthCallback_fresh_iff s now).2 hfresh
      rw [SonarCoverage.depthCallback_of_fresh env s now data hf,
        SonarCoverage.depthCallback_merge_record, SonarCoverage.depthCallback_merge_pings]
      by_cases hflush :
          SonarCoverage.depthCallback_distance env s (s.depthCallback_pr data) > s.m_interval
      · right
        rw [SonarCoverage.depthCallback_interval_flush env s _ hflush]
        intro heq
        have hlt := SonarCoverage.processInterval_pings_length
          { s with
            m_interval_accumulated_distance :=
              SonarCoverage.depthCallback_distance env s (s.depthCallback_pr data)
            m_interval_record := s.m_interval_record ++ [s.depthCallback_pr data] }
          (by simp)
        rw [heq] at hlt
        exact lt_irrefl _ hlt
      · left
        rw [SonarCoverage.depthCallback_interval_keep env s _ hflush]
        intro heq
        have := congrArg List.length heq
        simp at this

/-- C7 at a heading stamp one second old: the sample is dropped. -/
theorem C7_depthCallback_stale_witness :
    halfSecond ≤ (1000000100 : Int) - 100
      ∧ SonarCoverage.depthCallback flatEnv
            (((SonarCoverage.construct flatEnv 0 0 0).headingCallback 0 100).positionCallback 0 0
              1000000100) 1000000100 10
          = ((SonarCoverage.construct flatEnv 0 0 0).headingCallback 0 100).positionCallback 0 0
            1000000100 :=
  ⟨by decide,
   (C7_depthCallback_stale flatEnv
      (((SonarCoverage.construct flatEnv 0 0 0).headingCallback 0 100).positionCallback 0 0
        1000000100) 1000000100 10).1 (Or.inl (by decide))⟩

/-! ## The footprint -/

/-- C9: for a fresh depth sample with depth `data`, heading `h` and nadir `n`, the
coordinate sequence built in `depthCallback` is `[SF, PF, PB, SB, SF]`: five
vertices, the last equal to the first, each stored as `(x, y) = (longitude,
latitude)`, with `a = data * m_half_alongship_beamwidth_tan`,
`SP = direct n (h + 90) starboardDistance`, `SF = direct SP h a`,
`PF = direct SF (h - 90) (starboardDistance + portDistance)`,
`PB = direct PF (h + 180) (2 * a)`,
`SB = direct PB (h + 90) (starboardDistance + portDistance)`,
`portDistance = data * m_port_tan` and `starboardDistance = data * m_starboard_tan`;
the polygon with this shell and no hole is the one `depthCallback` merges. -/
theorem C9_depthCallback_footprint (env : Env) (s : SonarCoverage) (now : Time) (data : Double)
    (hfresh : s.depthCallback_fresh now = true) :
    let portDistance := data * Double.num s.m_port_tan
    let starboardDistance := data * Double.num s.m_starboard_tan
    let a := data * Double.num s.m_half_alongship_beamwidth_tan
    let h := s.m_heading
    let n : LatLon := { lat := s.m_latitude, lon := s.m_longitude }
    let SP := env.direct n (h + 90) starboardDistance
    let SF := env.direct SP h a
    let PF := env.direct SF (h - 90) (starboardDistance + portDistance)
    let PB := env.direct PF (h + 180) (2 * a)
    let SB := env.direct PB (h + 90) (starboardDistance + portDistance)
    let ring : List Coordinate :=
      [{ x := SF.lon, y := SF.lat }, { x := PF.lon, y := PF.lat }, { x := PB.lon, y := PB.lat },
       { x := SB.lon, y := SB.lat }, { x := SF.lon, y := SF.lat }]
    let s1 := SonarCoverage.depthCallback_interval env s (s.depthCallback_pr data)
    SonarCoverage.depthCallback_coordinates env s1 (s.depthCallback_pr data) data = ring
      ∧ ring.length = 5
      ∧ ring.getLast? = ring.head?
      ∧ s.depthCallback env now data
          = SonarCoverage.depthCallback_merge env s1 { exteriorRing := ring, holes := [] } := by
  intro portDistance starboardDistance a h n SP SF PF PB SB ring s1
  have hring : SonarCoverage.depthCallback_coordinates env s1 (s.depthCallback_pr data) data
      = ring := by
    rw [SonarCoverage.depthCallback_coordinates_half_tan env s s1 _ data
      (SonarCoverage.depthCallback_interval_half_tan env s _)]
    rfl
  refine ⟨hring, rfl, rfl, ?_⟩
  rw [SonarCoverage.depthCallback_of_fresh env s now data hfresh]
  show SonarCoverage.depthCallback_merge env s1
    (SonarCoverage.createPolygon
      (SonarCoverage.depthCallback_coordinates env s1 (s.depthCallback_pr data) data)) = _
  rw [hring]
  rfl

/-- C9 on the flat earth, depth 10, heading 0, nadir `(0, 0)`: the ring is the
rectangle with corners `(±275/21, ±55/126)`, closed on its first corner. -/
theorem C9_depthCallback_footprint_witness :
    SonarCoverage.depthCallback_coordinates flatEnv
        (SonarCoverage.depthCallback_interval flatEnv
          (((SonarCoverage.construct flatEnv 0 0 0).headingCallback 0 100).positionCallback 0 0
            100)
          ((((SonarCoverage.construct flatEnv 0 0 0).headingCallback 0 100).positionCallback 0 0
            100).depthCallback_pr 10))
        ((((SonarCoverage.construct flatEnv 0 0 0).headingCallback 0 100).positionCallback 0 0
            100).depthCallback_pr 10) 10
      = [{ x := 275 / 21, y := 55 / 126 }, { x := -275 / 21, y := 55 / 126 },
         { x := -275 / 21, y := -55 / 126 }, { x := 275 / 21, y := -55 / 126 },
         { x := 275 / 21, y := 55 / 126 }] :=
  (C9_depthCallback_footprint flatEnv
    (((SonarCoverage.construct flatEnv 0 0 0).headingCallback 0 100).positionCallback 0 0 100)
    101 10 (by decide)).1.trans (by decide!)

/-! ## The interval reduction -/

/-- C3 fails as stated: after a heading, a position and a depth of 10, a NaN depth
received 6 m further on is buffered and the interval is processed at once.  The
record then holds a ping with port distance `275/21` and a ping with port distance
NaN; both reduced pings appended carry `275/21`, which is not less than or equal
to the NaN port distance of the second buffered ping. -/
theorem C3_nan_not_minimum :
    (run flatEnv 0 0 0
        [Message.heading 0 100, Message.position 0 0 100, Message.depth 101 10,
         Message.position 6 0 102]).depthCallback_fresh 103 = true
      ∧ (run flatEnv 0 0 0
          [Message.heading 0 100, Message.position 0 0 100, Message.depth 101 10,
           Message.position 6 0 102]).m_interval_record
          ++ [(run flatEnv 0 0 0
                [Message.heading 0 100, Message.position 0 0 100, Message.depth 101 10,
                 Message.position 6 0 102]).depthCallback_pr Double.nan]
          = [⟨0, 0, 0, Double.num (275 / 21), Double.num (275 / 21)⟩,
             ⟨0, 6, 0, Double.nan, Double.nan⟩]
      ∧ (run flatEnv 0 0 0
          [Message.heading 0 100, Message.position 0 0 100, Message.depth 101 10,
           Message.position 6 0 102]).m_pings = []
      ∧ (SonarCoverage.processInterval
          { run flatEnv 0 0 0
              [Message.heading 0 100, Message.position 0 0 100, Message.depth 101 10,
               Message.position 6 0 102] with
            m_interval_accumulated_distance := 6
            m_interval_record :=
              [⟨0, 0, 0, Double.num (275 / 21), Double.num (275 / 21)⟩,
               ⟨0, 6, 0, Double.nan, Double.nan⟩] }).m_pings
          = [⟨0, 0, 0, Double.num (275 / 21), Double.num (275 / 21)⟩,
             ⟨0, 6, 0, Double.num (275 / 21), Double.num (275 / 21)⟩]
      ∧ (SonarCoverage.depthCallback flatEnv
          (run flatEnv 0 0 0
            [Message.heading 0 100, Message.position 0 0 100, Message.depth 101 10,
             Message.position 6 0 102])
          103 Double.nan).m_pings
          = [⟨0, 0, 0, Double.num (275 / 21), Double.num (275 / 21)⟩,
             ⟨0, 6, 0, Double.num (275 / 21), Double.num (275 / 21)⟩]
      ∧ ¬ (Double.num (275 / 21) ≤ Double.nan) := by
  decide!

/-- C3, amended: when the interval record is not empty, `processInterval` keeps
the reduced pings it had and appends at least one; when no buffered ping has a NaN
`port_distance`, every appended ping has for `port_distance` a value that is at
most the `port_distance` of every buffered ping and is the `port_distance` of one
of them; and likewise for `starboard_distance` when no buffered ping has a NaN
`starboard_distance`. -/
theorem C3_processInterval_minimum (s : SonarCoverage) (h : s.m_interval_record ≠ []) :
    s.processInterval.m_pings.take s.m_pings.length = s.m_pings
      ∧ s.processInterval.m_pings.drop s.m_pings.length ≠ []
      ∧ ((∀ p ∈ s.m_interval_record, p.port_distance ≠ Double.nan) →
          ∀ r ∈ s.processInterval.m_pings.drop s.m_pings.length,
            (∀ p ∈ s.m_interval_record, r.port_distance ≤ p.port_distance)
              ∧ (∃ p ∈ s.m_interval_record, r.port_distance = p.port_distance))
      ∧ ((∀ p ∈ s.m_interval_record, p.starboard_distance ≠ Double.nan) →
          ∀ r ∈ s.processInterval.m_pings.drop s.m_pings.length,
            (∀ p ∈ s.m_interval_record, r.starboard_distance ≤ p.starboard_distance)
              ∧ (∃ p ∈ s.m_interval_record, r.starboard_distance = p.starboard_distance)) := by
  obtain ⟨front, rest, hr⟩ := List.exists_cons_of_ne_nil h
  rw [SonarCoverage.processInterval_pings s front rest hr, hr]
  refine ⟨by simp, ?_, ?_, ?_⟩
  · by_cases hp : s.m_pings.isEmpty = true <;> simp [hp]
  · intro hnum r hmem
    have hport := foldl_stdMin_front (fun ir => ir.port_distance) front rest hnum
    rw [List.drop_left] at hmem
    by_cases hp : s.m_pings.isEmpty = true
    · simp only [hp, if_true, List.mem_cons, List.mem_singleton, List.not_mem_nil,
        or_false] at hmem
      rcases hmem with hmem | hmem <;> subst hmem <;> exact ⟨hport.1, hport.2⟩
    · simp only [hp, List.mem_singleton] at hmem
      simp only [Bool.false_eq_true, if_false, List.mem_singleton] at hmem
      subst hmem
      exact ⟨hport.1, hport.2⟩
  · intro hnum r hmem
    have hstbd := foldl_stdMin_front (fun ir => ir.starboard_distance) front rest hnum
    rw [List.drop_left] at hmem
    by_cases hp : s.m_pings.isEmpty = true
    · simp only [hp, if_true, List.mem_cons, List.mem_singleton, List.not_mem_nil,
        or_false] at hmem
      rcases hmem with hmem | hmem <;> subst hmem <;> exact ⟨hstbd.1, hstbd.2⟩
    · simp only [hp, List.mem_singleton] at hmem
      simp only [Bool.false_eq_true, if_false, List.mem_singleton] at hmem
      subst hmem
      exact ⟨hstbd.1, hstbd.2⟩

/-- C3, amended, on a record of three pings with port distances 4, 2, 3 and
starboard distances 5, 6, 1, none of them NaN, and no reduced ping yet: the two
appended pings carry 2 and 1, and each port distance is at most that of every
buffered ping. -/
theorem C3_processInterval_minimum_witness :
    (SonarCoverage.processInterval
        { SonarCoverage.construct flatEnv 0 0 0 with
          m_interval_record := [⟨0, 0, 0, 4, 5⟩, ⟨0, 1, 0, 2, 6⟩, ⟨0, 2, 0, 3, 1⟩] }).m_pings
        = [⟨0, 0, 0, 2, 1⟩, ⟨0, 2, 0, 2, 1⟩]
      ∧ (∀ r ∈ (SonarCoverage.processInterval
            { SonarCoverage.construct flatEnv 0 0 0 with
              m_interval_record :=
                [⟨0, 0, 0, 4, 5⟩, ⟨0, 1, 0, 2, 6⟩, ⟨0, 2, 0, 3, 1⟩] }).m_pings.drop 0,
          ∀ p ∈ ([⟨0, 0, 0, 4, 5⟩, ⟨0, 1, 0, 2, 6⟩, ⟨0, 2, 0, 3, 1⟩] : List PingRecord),
            r.port_distance ≤ p.port_distance)
      ∧ (∀ r ∈ (SonarCoverage.processInterval
            { SonarCoverage.construct flatEnv 0 0 0 with
              m_interval_record :=
                [⟨0, 0, 0, 4, 5⟩, ⟨0, 1, 0, 2, 6⟩, ⟨0, 2, 0, 3, 1⟩] }).m_pings.drop 0,
          ∀ p ∈ ([⟨0, 0, 0, 4, 5⟩, ⟨0, 1, 0, 2, 6⟩, ⟨0, 2, 0, 3, 1⟩] : List PingRecord),
            r.starboard_distance ≤ p.starboard_distance) :=
  ⟨by decide!,
   fun r hr => ((C3_processInterval_minimum
      { SonarCoverage.construct flatEnv 0 0 0 with
        m_interval_record := [⟨0, 0, 0, 4, 5⟩, ⟨0, 1, 0, 2, 6⟩, ⟨0, 2, 0, 3, 1⟩] }
      (by decide)).2.2.1 (by decide) r hr).1,
   fun r hr => ((C3_processInterval_minimum
      { SonarCoverage.construct flatEnv 0 0 0 with
        m_interval_record := [⟨0, 0, 0, 4, 5⟩, ⟨0, 1, 0, 2, 6⟩, ⟨0, 2, 0, 3, 1⟩] }
      (by decide)).2.2.2 (by decide) r hr).1⟩

/-- C5: when the interval record is not empty, `processInterval` appends to the
reduced pings and changes none it had: two records when there was none, the first
with the heading and nadir of the first buffered ping and the second with those of
the last buffered ping; otherwise one record with the heading and nadir of the last
buffered ping.  Afterwards the interval record is empty and the accumulated
distance is 0. -/
theorem C5_processInterval_append (s : SonarCoverage) (h : s.m_interval_record ≠ []) :
    ∃ first last : PingRecord,
      s.m_interval_record.head? = some first
        ∧ s.m_interval_record.getLast? = some last
        ∧ (s.m_pings = [] →
            ∃ r1 r2 : PingRecord,
              s.processInterval.m_pings = [r1, r2]
                ∧ r1.heading = first.heading
                ∧ r1.nadir_latitude = first.nadir_latitude
                ∧ r1.nadir_longitude = first.nadir_longitude
                ∧ r2.heading = last.heading
                ∧ r2.nadir_latitude = last.nadir_latitude
                ∧ r2.nadir_longitude = last.nadir_longitude)
        ∧ (s.m_pings ≠ [] →
            ∃ r : PingRecord,
              s.processInterval.m_pings = s.m_pings ++ [r]
                ∧ r.heading = last.heading
                ∧ r.nadir_latitude = last.nadir_latitude
                ∧ r.nadir_longitude = last.nadir_longitude)
        ∧ s.processInterval.m_interval_record = []
        ∧ s.processInterval.m_interval_accumulated_distance = 0 := by
  obtain ⟨front, rest, hr⟩ := List.exists_cons_of_ne_nil h
  refine ⟨front, (front :: rest).getLast (List.cons_ne_nil front rest), ?_, ?_, ?_, ?_,
    SonarCoverage.processInterval_record s, SonarCoverage.processInterval_distance s h⟩
  · rw [hr]; rfl
  · rw [hr]; exact List.getLast?_eq_getLast _ _
  · intro hp
    rw [SonarCoverage.processInterval_pings s front rest hr, hp]
    exact ⟨_, _, rfl, rfl, rfl, rfl, rfl, rfl, rfl⟩
  · intro hp
    rw [SonarCoverage.processInterval_pings s front rest hr]
    have hne : s.m_pings.isEmpty = false := by
      cases hq : s.m_pings with
      | nil => exact absurd hq hp
      | cons a l => rfl
    rw [hne]
    exact ⟨_, rfl, rfl, rfl, rfl⟩

/-- C5 on a record of two pings, with no reduced ping and then with one. -/
theorem C5_processInterval_append_witness :
    (SonarCoverage.processInterval
        { SonarCoverage.construct flatEnv 0 0 0 with
          m_interval_record := [⟨10, 0, 0, 4, 5⟩, ⟨20, 6, 0, 2, 6⟩] }).m_pings
        = [⟨10, 0, 0, 2, 5⟩, ⟨20, 6, 0, 2, 5⟩]
      ∧ ∃ first last : PingRecord,
          ([⟨10, 0, 0, 4, 5⟩, ⟨20, 6, 0, 2, 6⟩] : List PingRecord).head? = some first
            ∧ ([⟨10, 0, 0, 4, 5⟩, ⟨20, 6, 0, 2, 6⟩] : List PingRecord).getLast? = some last
            ∧ ∃ r : PingRecord,
                (SonarCoverage.processInterval
                  { SonarCoverage.construct flatEnv 0 0 0 with
                    m_pings := [⟨0, 0, 0, 1, 1⟩]
                    m_interval_record := [⟨10, 0, 0, 4, 5⟩, ⟨20, 6, 0, 2, 6⟩] }).m_pings
                  = [⟨0, 0, 0, 1, 1⟩] ++ [r]
                  ∧ r.heading = last.heading :=
  ⟨by decide!,
   match C5_processInterval_append
      { SonarCoverage.construct flatEnv 0 0 0 with
        m_pings := [⟨0, 0, 0, 1, 1⟩]
        m_interval_record := [⟨10, 0, 0, 4, 5⟩, ⟨20, 6, 0, 2, 6⟩] } (by decide) with
   | ⟨first, last, h1, h2, _, h4, _, _⟩ =>
     match h4 (by decide) with
     | ⟨r, hr, hh, _, _⟩ => ⟨first, last, h1, h2, r, hr, hh⟩⟩

/-! ## The accumulated distance -/

/-- C4: in every state reached from the constructed object by depth (fresh or
stale), heading, position and reset messages, `m_interval_accumulated_distance` is
the sum, in buffer order, of the `inverse` distances between the nadirs of
consecutive pings of the interval record, for any function `inverse`; so it is 0
when the record holds at most one ping. -/
theorem C4_accumulated_distance_invariant (env : Env) (heading latitude longitude : ℚ)
    (msgs : List Message) :
    (run env heading latitude longitude msgs).m_interval_accumulated_distance
        = consecutiveDistance env (run env heading latitude longitude msgs).m_interval_record
      ∧ ((run env heading latitude longitude msgs).m_interval_record.length ≤ 1 →
          (run env heading latitude longitude msgs).m_interval_accumulated_distance = 0) := by
  have hinv : SonarCoverage.distanceInvariant env (run env heading latitude longitude msgs) :=
    foldl_dispatch_invariant env msgs _ rfl
  refine ⟨hinv, fun hlen => ?_⟩
  rw [hinv]
  cases hr : (run env heading latitude longitude msgs).m_interval_record with
  | nil => rfl
  | cons a t =>
    cases t with
    | nil => rfl
    | cons b t2 =>
      rw [hr] at hlen
      simp at hlen

/-- C4 after one fresh ping and after two fresh pings 3 apart: the record holds
one ping and the distance is 0, then two pings and the distance is 3. -/
theorem C4_accumulated_distance_invariant_witness :
    (run flatEnv 0 0 0
        [Message.heading 0 100, Message.position 0 0 100,
         Message.depth 101 10]).m_interval_record.length ≤ 1
      ∧ (run flatEnv 0 0 0
        [Message.heading 0 100, Message.position 0 0 100,
         Message.depth 101 10]).m_interval_accumulated_distance = 0
      ∧ (run flatEnv 0 0 0
        [Message.heading 0 100, Message.position 0 0 100, Message.depth 101 10,
         Message.position 3 0 102, Message.depth 103 10]).m_interval_accumulated_distance = 3 :=
  ⟨by decide!,
   (C4_accumulated_distance_invariant flatEnv 0 0 0
      [Message.heading 0 100, Message.position 0 0 100, Message.depth 101 10]).2 (by decide!),
   by decide!⟩

/-! ## When the interval is processed -/

/-- C6: for a fresh depth sample, let `acc` be the accumulated distance after the
distance from the last buffered ping to the new ping has been added (nothing is
added when the record is empty).  The interval is processed (the record is
emptied, the distance zeroed and the reduced pings extended) iff `acc` is strictly
greater than `m_interval`; otherwise the record is the old record with the new
ping appended, the reduced pings are unchanged and the distance is `acc`.  The
member `m_interval` is 5 in every reachable state.  Scenario: from the
constructed object, three fresh pings at nadirs whose consecutive distances are 3
and 3 leave one ping and then two pings in the record with no reduced ping, and
the third ping processes the interval: the reduced pings are then exactly 2
and the record is empty. -/
theorem C6_depthCallback_flush (env : Env) :
    (∀ (s : SonarCoverage) (now : Time) (data : Double), s.depthCallback_fresh now = true →
        (∀ last, s.m_interval_record.getLast? = some last →
            SonarCoverage.depthCallback_distance env s (s.depthCallback_pr data)
              = s.m_interval_accumulated_distance
                + (env.inverse { lat := last.nadir_latitude, lon := last.nadir_longitude }
                    { lat := s.m_latitude, lon := s.m_longitude }).2)
          ∧ (s.m_interval_record = [] →
              SonarCoverage.depthCallback_distance env s (s.depthCallback_pr data)
                = s.m_interval_accumulated_distance)
          ∧ ((s.depthCallback env now data).m_interval_record = []
              ↔ SonarCoverage.depthCallback_distance env s (s.depthCallback_pr data)
                  > s.m_interval)
          ∧ (SonarCoverage.depthCallback_distance env s (s.depthCallback_pr data)
                > s.m_interval →
              (s.depthCallback env now data).m_interval_accumulated_distance = 0
                ∧ s.m_pings.length < (s.depthCallback env now data).m_pings.length
                ∧ (s.depthCallback env now data).m_pings.take s.m_pings.length = s.m_pings)
          ∧ (¬ SonarCoverage.depthCallback_distance env s (s.depthCallback_pr data)
                > s.m_interval →
              (s.depthCallback env now data).m_interval_record
                  = s.m_interval_record ++ [s.depthCallback_pr data]
                ∧ (s.depthCallback env now data).m_pings = s.m_pings
                ∧ (s.depthCallback env now data).m_interval_accumulated_distance
                    = SonarCoverage.depthCallback_distance env s (s.depthCallback_pr data)))
      ∧ (∀ (h0 la0 lo0 : ℚ) (msgs : List Message), (run env h0 la0 lo0 msgs).m_interval = 5)
      ∧ (∀ (h0 la0 lo0 heading lat1 lon1 lat2 lon2 lat3 lon3 : ℚ) (d1 d2 d3 : Double)
          (t : Time),
          (env.inverse { lat := lat1, lon := lon1 } { lat := lat2, lon := lon2 }).2 = 3 →
          (env.inverse { lat := lat2, lon := lon2 } { lat := lat3, lon := lon3 }).2 = 3 →
          ((run env h0 la0 lo0
                [Message.heading heading t, Message.position lat1 lon1 t,
                 Message.depth t d1]).m_interval_record.length = 1
            ∧ (run env h0 la0 lo0
                [Message.heading heading t, Message.position lat1 lon1 t,
                 Message.depth t d1]).m_pings = []
            ∧ (run env h0 la0 lo0
                [Message.heading heading t, Message.position lat1 lon1 t,
                 Message.depth t d1, Message.position lat2 lon2 t,
                 Message.depth t d2]).m_interval_record.length = 2
            ∧ (run env h0 la0 lo0
                [Message.heading heading t, Message.position lat1 lon1 t,
                 Message.depth t d1, Message.position lat2 lon2 t,
                 Message.depth t d2]).m_pings = []
            ∧ (run env h0 la0 lo0
                [Message.heading heading t, Message.position lat1 lon1 t,
                 Message.depth t d1, Message.position lat2 lon2 t,
                 Message.depth t d2, Message.position lat3 lon3 t,
                 Message.depth t d3]).m_interval_record = []
            ∧ (run env h0 la0 lo0
                [Message.heading heading t, Message.position lat1 lon1 t,
                 Message.depth t d1, Message.position lat2 lon2 t,
                 Message.depth t d2, Message.position lat3 lon3 t,
                 Message.depth t d3]).m_pings.length = 2)) := by
  refine ⟨?_, ?_, ?_⟩
  · intro s now data hf
    refine ⟨?_, ?_, ?_, ?_, ?_⟩
    · intro last hl
      unfold SonarCoverage.depthCallback_distance
      rw [hl]
      rfl
    · intro hnil
      unfold SonarCoverage.depthCallback_distance
      rw [hnil]
      rfl
    · constructor
      · intro hempty
        by_contra hk
        have h1 := (SonarCoverage.depthCallback_keep env s now data hf hk).1
        rw [hempty] at h1
        simp at h1
      · intro hfl
        exact (SonarCoverage.depthCallback_flush env s now data hf hfl).1
    · intro hfl
      obtain ⟨_, h2, h3⟩ := SonarCoverage.depthCallback_flush env s now data hf hfl
      refine ⟨h2, ?_, ?_⟩
      · rw [h3]
        exact SonarCoverage.processInterval_pings_length
          { s with
            m_interval_accumulated_distance :=
              SonarCoverage.depthCallback_distance env s (s.depthCallback_pr data)
            m_interval_record := s.m_interval_record ++ [s.depthCallback_pr data] }
          (by simp)
      · rw [h3]
        obtain ⟨front, rest, hr⟩ := List.exists_cons_of_ne_nil
          (show s.m_interval_record ++ [s.depthCallback_pr data] ≠ [] by simp)
        rw [SonarCoverage.processInterval_pings _ front rest hr]
        simp
    · intro hk
      exact SonarCoverage.depthCallback_keep env s now data hf hk
  · intro h0 la0 lo0 msgs
    exact foldl_dispatch_interval env msgs _
  · intro h0 la0 lo0 heading lat1 lon1 lat2 lon2 lat3 lon3 d1 d2 d3 t h12 h23
    have hage : t - t < halfSecond := by
      rw [sub_self]
      decide
    -- after the heading and the first position
    have fA : (((SonarCoverage.construct env h0 la0 lo0).headingCallback heading
        t).positionCallback lat1 lon1 t).depthCallback_fresh t = true :=
      (SonarCoverage.depthCallback_fresh_iff _ t).2 ⟨hage, hage⟩
    have kA := SonarCoverage.depthCallback_keep env _ t d1 fA
      (show ¬ (0 : ℚ) > 5 by norm_num)
    have frA := SonarCoverage.depthCallback_frame env
      (((SonarCoverage.construct env h0 la0 lo0).headingCallback heading
        t).positionCallback lat1 lon1 t) t d1
    generalize hsB : SonarCoverage.depthCallback env
      (((SonarCoverage.construct env h0 la0 lo0).headingCallback heading
        t).positionCallback lat1 lon1 t) t d1 = sB at kA frA
    obtain ⟨kA1, kA2, kA3⟩ := kA
    obtain ⟨frA1, frA2, frA3⟩ := frA
    -- the second position and depth
    have fB : (sB.positionCallback lat2 lon2 t).depthCallback_fresh t = true :=
      (SonarCoverage.depthCallback_fresh_iff _ t).2
        ⟨by show t - sB.m_last_heading_time < halfSecond; rw [frA2]; exact hage, hage⟩
    have dB : SonarCoverage.depthCallback_distance env (sB.positionCallback lat2 lon2 t)
        ((sB.positionCallback lat2 lon2 t).depthCallback_pr d2) = 3 := by
      unfold SonarCoverage.depthCallback_distance
      show (match sB.m_interval_record.getLast? with
        | some last => _
        | none => _) = _
      rw [kA1]
      show sB.m_interval_accumulated_distance
        + (env.inverse { lat := lat1, lon := lon1 } { lat := lat2, lon := lon2 }).2 = 3
      rw [kA3, h12]
      show (0 : ℚ) + 3 = 3
      norm_num
    have kB := SonarCoverage.depthCallback_keep env _ t d2 fB
      (by rw [dB]; show ¬ (3 : ℚ) > sB.m_interval; rw [frA1]; show ¬ (3 : ℚ) > 5; norm_num)
    have frB := SonarCoverage.depthCallback_frame env (sB.positionCallback lat2 lon2 t) t d2
    rw [dB] at kB
    generalize hsC : SonarCoverage.depthCallback env (sB.positionCallback lat2 lon2 t) t d2
      = sC at kB frB
    obtain ⟨kB1, kB2, kB3⟩ := kB
    obtain ⟨frB1, frB2, frB3⟩ := frB
    -- the third position and depth
    have fC : (sC.positionCallback lat3 lon3 t).depthCallback_fresh t = true :=
      (SonarCoverage.depthCallback_fresh_iff _ t).2
        ⟨by show t - sC.m_last_heading_time < halfSecond; rw [frB2]
            show t - sB.m_last_heading_time < halfSecond; rw [frA2]; exact hage, hage⟩
    have dC : SonarCoverage.depthCallback_distance env (sC.positionCallback lat3 lon3 t)
        ((sC.positionCallback lat3 lon3 t).depthCallback_pr d3) = 6 := by
      unfold SonarCoverage.depthCallback_distance
      show (match sC.m_interval_record.getLast? with
        | some last => _
        | none => _) = _
      rw [kB1]
      show (match (sB.m_interval_record ++ [(sB.positionCallback lat2 lon2 t).depthCallback_pr d2]).getLast? with
        | some last => _
        | none => _) = _
      rw [List.getLast?_append_cons, List.getLast?_singleton]
      show sC.m_interval_accumulated_distance
        + (env.inverse { lat := lat2, lon := lon2 } { lat := lat3, lon := lon3 }).2 = 6
      rw [kB3, h23]
      norm_num
    have kC := SonarCoverage.depthCallback_flush env _ t d3 fC
      (by rw [dC]; show (6 : ℚ) > sC.m_interval; rw [frB1]; show (6 : ℚ) > sB.m_interval
          rw [frA1]; show (6 : ℚ) > 5; norm_num)
    generalize hsD : SonarCoverage.depthCallback env (sC.positionCallback lat3 lon3 t) t d3
      = sD at kC
    obtain ⟨kC1, kC2, kC3⟩ := kC
    have hB : run env h0 la0 lo0
        [Message.heading heading t, Message.position lat1 lon1 t, Message.depth t d1] = sB :=
      hsB
    have hC : run env h0 la0 lo0
        [Message.heading heading t, Message.position lat1 lon1 t, Message.depth t d1,
         Message.position lat2 lon2 t, Message.depth t d2] = sC := by
      rw [← hsC, ← hsB]; rfl
    have hD : run env h0 la0 lo0
        [Message.heading heading t, Message.position lat1 lon1 t, Message.depth t d1,
         Message.position lat2 lon2 t, Message.depth t d2, Message.position lat3 lon3 t,
         Message.depth t d3] = sD := by
      rw [← hsD, ← hsC, ← hsB]; rfl
    rw [hB, hC, hD]
    refine ⟨by rw [kA1]; rfl, kA2, by rw [kB1]; show (sB.m_interval_record ++ [_]).length = 2
                                      rw [kA1]; rfl, ?_, kC1, ?_⟩
    · rw [kB2]; exact kA2
    · rw [kC3]
      obtain ⟨front, rest, hr⟩ := List.exists_cons_of_ne_nil
        (show (sC.positionCallback lat3 lon3 t).m_interval_record
          ++ [(sC.positionCallback lat3 lon3 t).depthCallback_pr d3] ≠ [] by simp)
      rw [SonarCoverage.processInterval_pings _ front rest hr]
      show (sC.m_pings ++ (if sC.m_pings.isEmpty = true then _ else _)).length = 2
      rw [kB2]
      show (sB.m_pings ++ (if sB.m_pings.isEmpty = true then _ else _)).length = 2
      rw [kA2]
      rfl

/-- C6 on the flat earth with nadirs `(0, 0)`, `(3, 0)` and `(6, 0)`: the distances
are 3 and 3, the third ping processes the interval, and for that third ping the
general statement gives the accumulated distance 6 > 5. -/
theorem C6_depthCallback_flush_witness :
    (flatEnv.inverse { lat := 0, lon := 0 } { lat := 3, lon := 0 }).2 = 3
      ∧ (flatEnv.inverse { lat := 3, lon := 0 } { lat := 6, lon := 0 }).2 = 3
      ∧ (run flatEnv 0 0 0
          [Message.heading 0 100, Message.position 0 0 100, Message.depth 100 10,
           Message.position 3 0 100, Message.depth 100 10, Message.position 6 0 100,
           Message.depth 100 10]).m_interval_record = []
      ∧ (run flatEnv 0 0 0
          [Message.heading 0 100, Message.position 0 0 100, Message.depth 100 10,
           Message.position 3 0 100, Message.depth 100 10, Message.position 6 0 100,
           Message.depth 100 10]).m_pings.length = 2
      ∧ SonarCoverage.depthCallback_distance flatEnv
          (run flatEnv 0 0 0
            [Message.heading 0 100, Message.position 0 0 100, Message.depth 100 10,
             Message.position 3 0 100, Message.depth 100 10, Message.position 6 0 100])
          ((run flatEnv 0 0 0
            [Message.heading 0 100, Message.position 0 0 100, Message.depth 100 10,
             Message.position 3 0 100, Message.depth 100 10,
             Message.position 6 0 100]).depthCallback_pr 10) = 3 + 3 :=
  ⟨by decide!, by decide!,
   ((C6_depthCallback_flush flatEnv).2.2 0 0 0 0 0 0 3 0 6 0 10 10 10 100
      (by decide!) (by decide!)).2.2.2.2.1,
   ((C6_depthCallback_flush flatEnv).2.2 0 0 0 0 0 0 3 0 6 0 10 10 10 100
      (by decide!) (by decide!)).2.2.2.2.2,
   (((C6_depthCallback_flush flatEnv).1
      (run flatEnv 0 0 0
        [Message.heading 0 100, Message.position 0 0 100, Message.depth 100 10,
         Message.position 3 0 100, Message.depth 100 10, Message.position 6 0 100])
      100 10 (by decide!)).1 ⟨0, 3, 0, Double.num (550 / 42), Double.num (550 / 42)⟩
      (by decide!)).trans (by decide!)⟩

/-! ## Results that are neither a polygon nor a collection of polygons -/

/-- C2 fails as stated: with a simplifier whose result is neither a polygon nor a
collection of polygons, a fresh depth sample received with an empty coverage
leaves one polygon, the footprint, in the coverage. -/
theorem C2_unsupported_changes_coverage :
    (run otherEnv 0 0 0
        [Message.heading 0 100, Message.position 0 0 100]).depthCallback_fresh 101 = true
      ∧ (run otherEnv 0 0 0 [Message.heading 0 100, Message.position 0 0 100]).m_coverage = []
      ∧ otherEnv.simplify (1 / 10000)
          (otherEnv.cascadedUnion
            ((run otherEnv 0 0 0 [Message.heading 0 100, Message.position 0 0 100]).m_coverage
              ++ [SonarCoverage.createPolygon
                    (SonarCoverage.depthCallback_coordinates otherEnv
                      (run otherEnv 0 0 0 [Message.heading 0 100, Message.position 0 0 100])
                      ((run otherEnv 0 0 0
                        [Message.heading 0 100, Message.position 0 0 100]).depthCallback_pr 10)
                      10)]))
          = Geometry.other
      ∧ (SonarCoverage.depthCallback otherEnv
          (run otherEnv 0 0 0 [Message.heading 0 100, Message.position 0 0 100])
          101 10).m_coverage
          ≠ (run otherEnv 0 0 0 [Message.heading 0 100, Message.position 0 0 100]).m_coverage := by
  decide!

/-- C2, amended: for a fresh depth sample whose union and simplification yield
neither a polygon nor a collection of polygons, the coverage after `depthCallback`
is the coverage before it with the footprint polygon of the sample appended. -/
theorem C2_unsupported_appends_footprint (env : Env) (s : SonarCoverage) (now : Time) (data : Double)
    (hfresh : s.depthCallback_fresh now = true)
    (hpolygon : ∀ p : Polygon,
      env.simplify (1 / 10000)
        (env.cascadedUnion
          (s.m_coverage ++ [SonarCoverage.createPolygon
            (SonarCoverage.depthCallback_coordinates env s (s.depthCallback_pr data) data)]))
        ≠ Geometry.polygon p)
    (hmulti : ∀ ps : List Polygon,
      env.simplify (1 / 10000)
        (env.cascadedUnion
          (s.m_coverage ++ [SonarCoverage.createPolygon
            (SonarCoverage.depthCallback_coordinates env s (s.depthCallback_pr data) data)]))
        ≠ Geometry.multiPolygon ps) :
    (s.depthCallback env now data).m_coverage
      = s.m_coverage ++ [SonarCoverage.createPolygon
          (SonarCoverage.depthCallback_coordinates env s (s.depthCallback_pr data) data)] := by
  rw [SonarCoverage.depthCallback_of_fresh env s now data hfresh,
    SonarCoverage.depthCallback_coordinates_half_tan env s _ _ data
      (SonarCoverage.depthCallback_interval_half_tan env s _)]
  rw [SonarCoverage.depthCallback_merge_other env _ _
    (by rw [SonarCoverage.depthCallback_interval_coverage]; exact hpolygon)
    (by rw [SonarCoverage.depthCallback_interval_coverage]; exact hmulti)]
  show (SonarCoverage.depthCallback_interval env s (s.depthCallback_pr data)).m_coverage ++ _ = _
  rw [SonarCoverage.depthCallback_interval_coverage]

/-- C2, amended, on a fresh sample of depth 10 received with an empty coverage
and a simplifier whose result is neither kind of polygon: the coverage becomes the
footprint alone. -/
theorem C2_unsupported_appends_footprint_witness :
    (SonarCoverage.depthCallback otherEnv
        (run otherEnv 0 0 0 [Message.heading 0 100, Message.position 0 0 100])
        101 10).m_coverage
      = [{ exteriorRing :=
            [{ x := 275 / 21, y := 55 / 126 }, { x := -275 / 21, y := 55 / 126 },
             { x := -275 / 21, y := -55 / 126 }, { x := 275 / 21, y := -55 / 126 },
             { x := 275 / 21, y := 55 / 126 }]
           holes := [] }] :=
  (C2_unsupported_appends_footprint otherEnv
    (run otherEnv 0 0 0 [Message.heading 0 100, Message.position 0 0 100]) 101 10
    (by decide!) (fun p => show Geometry.other ≠ Geometry.polygon p from Geometry.noConfusion)
    (fun ps => show Geometry.other ≠ Geometry.multiPolygon ps from Geometry.noConfusion)).trans
    (by decide!)

/-! ## Publications -/

/-- C10 fails as stated: with a simplifier whose result is neither a polygon nor a
collection of polygons, a fresh depth sample taken 6 m after the first buffered
ping makes `processInterval` run (the record is emptied), and `depthCallback`
publishes one message where none had been published before. -/
theorem C10_unsupported_flush_publishes :
    (run otherEnv 0 0 0
        [Message.heading 0 100, Message.position 0 0 100, Message.depth 101 10,
         Message.position 6 0 102]).depthCallback_fresh 103 = true
      ∧ otherEnv.simplify (1 / 10000)
          (otherEnv.cascadedUnion
            ((run otherEnv 0 0 0
                [Message.heading 0 100, Message.position 0 0 100, Message.depth 101 10,
                 Message.position 6 0 102]).m_coverage
              ++ [SonarCoverage.createPolygon
                    (SonarCoverage.depthCallback_coordinates otherEnv
                      (run otherEnv 0 0 0
                        [Message.heading 0 100, Message.position 0 0 100,
                         Message.depth 101 10, Message.position 6 0 102])
                      ((run otherEnv 0 0 0
                        [Message.heading 0 100, Message.position 0 0 100,
                         Message.depth 101 10, Message.position 6 0 102]).depthCallback_pr 10)
                      10)]))
          = Geometry.other
      ∧ (run otherEnv 0 0 0
          [Message.heading 0 100, Message.position 0 0 100, Message.depth 101 10,
           Message.position 6 0 102]).m_coverage_pub = []
      ∧ (SonarCoverage.depthCallback otherEnv
          (run otherEnv 0 0 0
            [Message.heading 0 100, Message.position 0 0 100, Message.depth 101 10,
             Message.position 6 0 102])
          103 10).m_coverage_pub.length = 1
      ∧ (SonarCoverage.depthCallback otherEnv
          (run otherEnv 0 0 0
            [Message.heading 0 100, Message.position 0 0 100, Message.depth 101 10,
             Message.position 6 0 102])
          103 10).m_interval_record = [] := by
  decide!

/-- C10, amended: a depth sample dropped as stale publishes nothing; a fresh
sample whose union and simplification yield neither a polygon nor a collection of
polygons publishes nothing when its ping does not make the interval be processed,
and publishes exactly one message, the path of the coverage as it was before the
sample, when it does; every reset publishes exactly one message, the path of the
coverage. -/
theorem C10_publications (env : Env) (s : SonarCoverage) (now : Time) (data : Double) :
    (s.depthCallback_fresh now = false →
        (s.depthCallback env now data).m_coverage_pub = s.m_coverage_pub)
      ∧ (s.depthCallback_fresh now = true →
          (∀ p : Polygon,
            env.simplify (1 / 10000)
              (env.cascadedUnion
                (s.m_coverage ++ [SonarCoverage.createPolygon
                  (SonarCoverage.depthCallback_coordinates env s (s.depthCallback_pr data)
                    data)]))
              ≠ Geometry.polygon p) →
          (∀ ps : List Polygon,
            env.simplify (1 / 10000)
              (env.cascadedUnion
                (s.m_coverage ++ [SonarCoverage.createPolygon
                  (SonarCoverage.depthCallback_coordinates env s (s.depthCallback_pr data)
                    data)]))
              ≠ Geometry.multiPolygon ps) →
          (s.depthCallback env now data).m_coverage_pub
            = if SonarCoverage.depthCallback_distance env s (s.depthCallback_pr data)
                  > s.m_interval then
                s.m_coverage_pub ++ [SonarCoverage.publishCoverage_gpath s.m_coverage]
              else s.m_coverage_pub)
      ∧ (∀ b : Bool,
          (s.resetCallback b).m_coverage_pub
            = s.m_coverage_pub ++ [SonarCoverage.publishCoverage_gpath s.m_coverage]) := by
  refine ⟨?_, ?_, fun b => rfl⟩
  · intro hstale
    rw [SonarCoverage.depthCallback_of_stale env s now data hstale]
  · intro hfresh hpolygon hmulti
    rw [SonarCoverage.depthCallback_of_fresh env s now data hfresh,
      SonarCoverage.depthCallback_coordinates_half_tan env s _ _ data
        (SonarCoverage.depthCallback_interval_half_tan env s _)]
    rw [SonarCoverage.depthCallback_merge_other env _ _
      (by rw [SonarCoverage.depthCallback_interval_coverage]; exact hpolygon)
      (by rw [SonarCoverage.depthCallback_interval_coverage]; exact hmulti)]
    exact SonarCoverage.depthCallback_interval_pub env s _

/-- C10, amended, on a stale sample, on a fresh sample 6 m after the first
buffered ping whose merge result is neither kind of polygon (one message, the
path of the coverage before the sample) and on a reset of the constructed
object (one message, the empty path). -/
theorem C10_publications_witness :
    (SonarCoverage.depthCallback otherEnv (SonarCoverage.construct otherEnv 0 0 0)
        1000000000 10).m_coverage_pub = []
      ∧ (SonarCoverage.depthCallback otherEnv
          (run otherEnv 0 0 0
            [Message.heading 0 100, Message.position 0 0 100, Message.depth 101 10,
             Message.position 6 0 102])
          103 10).m_coverage_pub
          = [{ poses :=
                [⟨55 / 126, 275 / 21⟩, ⟨55 / 126, -275 / 21⟩, ⟨-55 / 126, -275 / 21⟩,
                 ⟨-55 / 126, 275 / 21⟩, ⟨55 / 126, 275 / 21⟩, ⟨-91, -181⟩] }]
      ∧ (SonarCoverage.resetCallback (SonarCoverage.construct otherEnv 0 0 0)
          true).m_coverage_pub = [{ poses := [] }] :=
  ⟨(C10_publications otherEnv (SonarCoverage.construct otherEnv 0 0 0) 1000000000 10).1
      (by decide),
   ((C10_publications otherEnv
      (run otherEnv 0 0 0
        [Message.heading 0 100, Message.position 0 0 100, Message.depth 101 10,
         Message.position 6 0 102])
      103 10).2.1 (by decide!)
      (fun p => show Geometry.other ≠ Geometry.polygon p from Geometry.noConfusion)
      (fun ps => show Geometry.other ≠ Geometry.multiPolygon ps from
        Geometry.noConfusion)).trans (by decide!),
   (C10_publications otherEnv (SonarCoverage.construct otherEnv 0 0 0) 0 0).2.2 true⟩

end survey_manager
